import Mathlib

/-!
# Verification of the infrared Minecraft reverse proxy (core fragments)

Shallow embedding of the repository's Go sources:

* `src/unnamed/part_000` — the Java `status` package: the client-bound
  status `Response` packet, its `Marshal` and `UnmarshalClientBoundResponse`.
* `src/internal/pkg/bedrock/conn_processer.go` — the Bedrock connection
  processor `ConnProcessor.ProcessConn`.
* `src/cmd/root.go` — the CLI entrypoint: `newLogger`, the root command's
  run function, `safeWriteFromEmbeddedFS`, and the hot-reload callback
  `onConfigChange`.

Go strings are modelled as `List Char` (the characters of interest are
ASCII, where Go's byte-wise operations and the character-wise model
coincide); Go byte slices are `List Nat` with values below 256; external
collaborators (the RakNet codec, the JWT login parser, the PROXY-protocol
reader, proxy/plugin reload actions) enter as explicit parameters of an
environment record, while all control flow of the embedded functions is
taken verbatim from the source.
-/

namespace Infrared

/-! ## Java protocol model

The `protocol` package (VarInt, String, `MarshalPacket`, `Packet.Scan`) is
repository code that is not among the provided sources; it is modelled from
the spec here and marked as such. The `status` package in
`src/unnamed/part_000` is embedded from the source.
-/

/-- Modelled from the spec: Minecraft Java protocol unsigned LEB128
("varint") encoding used for length prefixes; canonical little-endian
base-128 groups with a continuation bit. The `protocol` package itself is
not among the provided sources. -/
def encodeVarInt (n : Nat) : List Nat :=
  if h : n < 0x80 then [n]
  else (n % 0x80 + 0x80) :: encodeVarInt (n / 0x80)
decreasing_by
  exact Nat.div_lt_self (Nat.lt_of_lt_of_le (by norm_num) (Nat.le_of_not_lt h)) (by norm_num)

/-- Modelled from the spec: varint decoding with the 5-byte bound the Java
codec imposes (32-bit values). Returns the value and the remaining bytes. -/
def decodeVarIntAux (fuel shift acc : Nat) (bs : List Nat) :
    Option (Nat × List Nat) :=
  match fuel, bs with
  | 0, _ => none
  | _, [] => none
  | fuel + 1, b :: rest =>
    if b < 0x80 then some (acc + b * 2 ^ shift, rest)
    else decodeVarIntAux fuel (shift + 7) (acc + (b % 0x80) * 2 ^ shift) rest

/-- Modelled from the spec: varint decoding entry point (at most 5 bytes). -/
def decodeVarInt (bs : List Nat) : Option (Nat × List Nat) :=
  decodeVarIntAux 5 0 0 bs

/-- Modelled from the spec: `protocol.String` encoding — a varint byte
length followed by the raw bytes. -/
def encodeString (s : List Nat) : List Nat :=
  encodeVarInt s.length ++ s

/-- Modelled from the spec: `protocol.String` decoding — read a varint
length, then that many bytes; fail if fewer bytes remain. -/
def decodeString (bs : List Nat) : Option (List Nat × List Nat) :=
  match decodeVarInt bs with
  | none => none
  | some (n, rest) =>
    if n ≤ rest.length then some (rest.take n, rest.drop n) else none

/-- A Java protocol packet: an ID byte and a payload, as in the
`protocol.Packet` the status package manipulates. -/
structure Packet where
  ID : Nat
  Data : List Nat
  deriving DecidableEq, Repr

/-- Modelled from the spec: `protocol.MarshalPacket` concatenates the
field encodings into the packet payload. -/
def MarshalPacket (id : Nat) (fields : List (List Nat)) : Packet :=
  ⟨id, fields.flatten⟩

/-- Errors surfaced by the status packet layer. -/
inductive PktError where
  | invalidPacketID
  | scanFailed
  deriving DecidableEq, Repr

/-- Constant `status.ClientBoundResponsePacketID` (src/unnamed/part_000 line 5). -/
def ClientBoundResponsePacketID : Nat := 0x00

/-- Structure `status.ClientBoundResponse` (src/unnamed/part_000): a single
`protocol.String` field holding the JSON status document. -/
structure ClientBoundResponse where
  JSONResponse : List Nat
  deriving DecidableEq, Repr

/-- The zero value of `ClientBoundResponse`, as Go's `var pk` yields. -/
def ClientBoundResponse.zero : ClientBoundResponse := ⟨[]⟩

/-- Method `ClientBoundResponse.Marshal` (src/unnamed/part_000 lines 11-16):
marshal the packet ID with the JSON string as sole field. -/
def ClientBoundResponse.Marshal (pk : ClientBoundResponse) : Packet :=
  MarshalPacket ClientBoundResponsePacketID [encodeString pk.JSONResponse]

/-- Function `status.UnmarshalClientBoundResponse` (src/unnamed/part_000 lines
18-32): reject a wrong packet ID before touching the payload, otherwise
scan the single string field. Returns the Go pair `(pk, err)`. -/
def UnmarshalClientBoundResponse (packet : Packet) :
    ClientBoundResponse × Option PktError :=
  if packet.ID ≠ ClientBoundResponsePacketID then
    (ClientBoundResponse.zero, some .invalidPacketID)
  else
    match decodeString packet.Data with
    | none => (ClientBoundResponse.zero, some .scanFailed)
    | some (s, _) => (⟨s⟩, none)

/-! ### Varint roundtrip -/

theorem encodeVarInt_lt (n : Nat) : ∀ b ∈ encodeVarInt n, b < 256 := by
  induction n using Nat.strong_induction_on with
  | _ n ih =>
    intro b hb
    rw [encodeVarInt] at hb
    split at hb
    · simp only [List.mem_singleton] at hb
      omega
    · rename_i h
      rcases List.mem_cons.mp hb with h1 | h2
      · have : n % 0x80 < 0x80 := Nat.mod_lt n (by norm_num)
        omega
      · exact ih (n / 0x80) (Nat.div_lt_self (by omega) (by norm_num)) b h2

theorem encodeVarInt_length_le (k : Nat) :
    ∀ n, n < 2 ^ (7 * (k + 1)) → (encodeVarInt n).length ≤ k + 1 := by
  induction k with
  | zero =>
    intro n hn
    rw [encodeVarInt]
    split
    · simp
    · rename_i h
      norm_num at hn h
      omega
  | succ k ih =>
    intro n hn
    rw [encodeVarInt]
    split
    · simp
    · rename_i h
      simp only [List.length_cons]
      have hdiv : n / 0x80 < 2 ^ (7 * (k + 1)) := by
        apply Nat.div_lt_of_lt_mul
        calc n < 2 ^ (7 * (k + 1 + 1)) := hn
        _ = 0x80 * 2 ^ (7 * (k + 1)) := by ring
      have := ih (n / 0x80) hdiv
      omega

theorem decodeVarIntAux_encode (n : Nat) :
    ∀ fuel shift acc rest, (encodeVarInt n).length ≤ fuel →
      decodeVarIntAux fuel shift acc (encodeVarInt n ++ rest) =
        some (acc + n * 2 ^ shift, rest) := by
  induction n using Nat.strong_induction_on with
  | _ n ih =>
    intro fuel shift acc rest hlen
    by_cases h : n < 0x80
    · rw [encodeVarInt, dif_pos h] at hlen ⊢
      simp only [List.length_singleton] at hlen
      rcases fuel with _ | fuel
      · omega
      · simp only [List.singleton_append, decodeVarIntAux, if_pos h,
          List.append_eq, List.nil_append]
    · rw [encodeVarInt, dif_neg h] at hlen ⊢
      simp only [List.length_cons] at hlen
      rcases fuel with _ | fuel
      · omega
      · have hrec := ih (n / 0x80)
          (Nat.div_lt_self (by omega) (by norm_num))
          fuel (shift + 7) (acc + (n % 0x80) * 2 ^ shift) rest (by omega)
        have hge : ¬ (n % 0x80 + 0x80 < 0x80) := by omega
        have hmod : (n % 0x80 + 0x80) % 0x80 = n % 0x80 := by omega
        simp only [List.cons_append, decodeVarIntAux, if_neg hge, hmod,
          List.append_eq]
        rw [hrec]
        have hsplit : n % 0x80 + n / 0x80 * 0x80 = n := by
          have := Nat.mod_add_div n 0x80
          omega
        have harith : n % 0x80 * 2 ^ shift + n / 0x80 * 2 ^ (shift + 7) =
            n * 2 ^ shift := by
          have h7 : (2 : Nat) ^ (shift + 7) = 2 ^ shift * 0x80 := by
            rw [pow_add]; norm_num
          rw [h7]
          calc n % 0x80 * 2 ^ shift + n / 0x80 * (2 ^ shift * 0x80)
              = (n % 0x80 + n / 0x80 * 0x80) * 2 ^ shift := by ring
          _ = n * 2 ^ shift := by rw [hsplit]
        simp only [Option.some.injEq, Prod.mk.injEq, and_true]
        omega

theorem decodeVarInt_encode (n : Nat) (rest : List Nat) (h : n < 2 ^ 31) :
    decodeVarInt (encodeVarInt n ++ rest) = some (n, rest) := by
  have hlen : (encodeVarInt n).length ≤ 5 := by
    have := encodeVarInt_length_le 4 n (by norm_num at h ⊢; omega)
    omega
  have := decodeVarIntAux_encode n 5 0 0 rest hlen
  simpa [decodeVarInt] using this

theorem decodeString_encode (s : List Nat) (h : s.length < 2 ^ 31) :
    decodeString (encodeString s) = some (s, []) := by
  unfold decodeString encodeString
  rw [decodeVarInt_encode s.length s h]
  simp

/-- C7: for every status response value `pk` (any `JSONResponse` string of
machine-representable length), unmarshalling the packet produced by
marshalling it returns `pk` unchanged with no error:
`UnmarshalClientBoundResponse (pk.Marshal) = (pk, nil)`. -/
theorem unmarshal_marshal_clientBoundResponse (pk : ClientBoundResponse)
    (h : pk.JSONResponse.length < 2 ^ 31) :
    UnmarshalClientBoundResponse pk.Marshal = (pk, none) := by
  unfold UnmarshalClientBoundResponse ClientBoundResponse.Marshal MarshalPacket
  simp only [List.flatten, List.append_nil, ne_eq]
  rw [if_neg (by simp [ClientBoundResponsePacketID])]
  rw [decodeString_encode pk.JSONResponse h]

/-- Witness for C7: the roundtrip at a concrete two-byte JSON string. -/
theorem unmarshal_marshal_clientBoundResponse_witness :
    (([123, 125] : List Nat)).length < 2 ^ 31 ∧
      UnmarshalClientBoundResponse (ClientBoundResponse.Marshal ⟨[123, 125]⟩) =
        (⟨[123, 125]⟩, none) :=
  ⟨by norm_num,
   unmarshal_marshal_clientBoundResponse ⟨[123, 125]⟩ (by norm_num)⟩

/-- C8: a packet whose ID differs from the client-bound status response ID
0x00 is rejected by `UnmarshalClientBoundResponse` with the
invalid-packet-ID error and the zero value, and the payload is never read:
the result is the same whatever bytes the payload holds. -/
theorem unmarshalClientBoundResponse_wrong_id (packet : Packet)
    (h : packet.ID ≠ ClientBoundResponsePacketID) :
    UnmarshalClientBoundResponse packet =
      (ClientBoundResponse.zero, some .invalidPacketID) ∧
    ∀ data : List Nat,
      UnmarshalClientBoundResponse ⟨packet.ID, data⟩ =
        (ClientBoundResponse.zero, some .invalidPacketID) := by
  constructor
  · unfold UnmarshalClientBoundResponse
    rw [if_pos h]
  · intro data
    unfold UnmarshalClientBoundResponse
    rw [if_pos h]

/-- Witness for C8: a packet with ID 0x01 is rejected whatever its data. -/
theorem unmarshalClientBoundResponse_wrong_id_witness :
    UnmarshalClientBoundResponse ⟨1, [7, 8, 9]⟩ =
      (ClientBoundResponse.zero, some .invalidPacketID) ∧
    ∀ data : List Nat,
      UnmarshalClientBoundResponse ⟨(1 : Nat), data⟩ =
        (ClientBoundResponse.zero, some .invalidPacketID) :=
  unmarshalClientBoundResponse_wrong_id ⟨1, [7, 8, 9]⟩ (by decide)

/-! ## Go standard library: `net.SplitHostPort`

`ProcessConn` calls `net.SplitHostPort` on the requested server address.
The function is embedded from the Go standard library (`net/ipsock.go`);
Go strings are `List Char`, string indexing becomes `take`/`drop`, and the
error messages are paraphrased (`AddrError.Err` texts). -/

/-- Index of the last occurrence of `c` in `s` (Go `last(s, byte)` which
returns -1 when absent, modelled as `none`). -/
def lastIndexOf (s : List Char) (c : Char) : Option Nat :=
  match (s.reverse.findIdx? (· = c)) with
  | none => none
  | some j => some (s.length - 1 - j)

/-- Index of the first occurrence of `c` in `s`
(Go `bytealg.IndexByteString`, -1-when-absent modelled as `none`). -/
def firstIndexOf (s : List Char) (c : Char) : Option Nat :=
  s.findIdx? (· = c)

/-- The trailing `[`/`]` sanity checks of `net.SplitHostPort` and its
successful return: `host` as computed by the caller, `port` the text after
the last colon at index `i`; `j`/`k` are the positions from which stray
brackets are rejected. -/
def splitHostPortTail (hostPort : List Char) (j k i : Nat)
    (host : List Char) : Except String (List Char × List Char) :=
  if firstIndexOf (hostPort.drop j) '[' ≠ none then
    .error "unexpected left bracket in address"
  else if firstIndexOf (hostPort.drop k) ']' ≠ none then
    .error "unexpected right bracket in address"
  else
    .ok (host, hostPort.drop (i + 1))

/-- Go `net.SplitHostPort` (net/ipsock.go): the port starts after the
last colon; a leading `[` opens a bracketed (IPv6) host whose closing `]`
must sit just before that colon, and the brackets are stripped from the
returned host; otherwise the host is everything before the colon and may
itself contain no colon. -/
def splitHostPort (hostPort : List Char) :
    Except String (List Char × List Char) :=
  match lastIndexOf hostPort ':' with
  | none => .error "missing port in address"
  | some i =>
    if hostPort.head? = some '[' then
      match firstIndexOf hostPort ']' with
      | none => .error "missing right bracket in address"
      | some e =>
        if e + 1 = hostPort.length then
          .error "missing port in address"
        else if e + 1 = i then
          splitHostPortTail hostPort 1 (e + 1) i ((hostPort.take e).drop 1)
        else if hostPort[e + 1]? = some ':' then
          .error "too many colons in address"
        else
          .error "missing port in address"
    else
      let host := hostPort.take i
      if firstIndexOf host ':' ≠ none then
        .error "too many colons in address"
      else
        splitHostPortTail hostPort 0 0 i host

/-! ## Bedrock connection processor

`ConnProcessor.ProcessConn` (src/internal/pkg/bedrock/conn_processer.go,
lines 32-82). The external collaborators it calls — the PROXY-protocol
reader `proxyproto.Read`, the RakNet frame reader `Conn.ReadPacket`, the
packet decoder `protocol.NewDecoder(...).Decode`, the packet unmarshaller
`protocol.UnmarshalPacket`, and the JWT-chain parser `login.Parse` — are
not among the provided sources; they enter as fields of a `ConnEnv`
environment, and every line of control flow below mirrors the source. -/

/-- A decoded RakNet application packet (kept abstract until the processor
unmarshals it). -/
structure RakPacket where
  bytes : List Nat
  deriving DecidableEq, Repr

/-- Packet `protocol.Login`: the processor only reads its `ConnectionRequest`. -/
structure LoginPacket where
  connectionRequest : List Nat
  deriving DecidableEq, Repr

/-- The identity-data claim of the login JWT chain (only `DisplayName` is
read by the processor). -/
structure IdentityData where
  displayName : List Char
  deriving DecidableEq, Repr

/-- The client-data claim of the login JWT chain (only `ServerAddress` is
read by the processor). -/
structure ClientData where
  serverAddress : List Char
  deriving DecidableEq, Repr

/-- The outcomes of the external calls `ProcessConn` makes, plus the two
fields it reads off the accepted connection (`proxyProtocol`,
`c.RemoteAddr()`). -/
structure ConnEnv where
  proxyProtocol : Bool
  remoteAddr0 : List Char
  proxyHeader : Except String (List Char)
  readPacket : Except String (List Nat)
  decode : List Nat → Except String (List RakPacket)
  unmarshalLogin : RakPacket → Except String LoginPacket
  loginParse : List Nat → Except String (IdentityData × ClientData)

/-- Structure `bedrock.ProcessedConn` as `ProcessConn` populates it: the
(possibly PROXY-rewritten) remote address, the accumulated handshake bytes
`readBytes`, and the username/server address extracted from the login. -/
structure ProcessedConn where
  remoteAddr : List Char
  readBytes : List Nat
  username : List Char
  serverAddr : List Char
  deriving DecidableEq, Repr

/-- Segment of `ProcessConn`, the last one (conn_processer.go lines 71-81): take the
display name as username and the server address from the login claims,
splitting off a `:port` suffix via `net.SplitHostPort` when a colon is
present (`strings.Contains`); a split failure is returned as the
connection's error. -/
def processLoginData (remoteAddr : List Char) (b : List Nat)
    (iData : IdentityData) (cData : ClientData) :
    Option ProcessedConn × Option String :=
  let username := iData.displayName
  let serverAddr := cData.serverAddress
  if ':' ∈ serverAddr then
    match splitHostPort serverAddr with
    | .error e => (none, some e)
    | .ok (host, _) => (some ⟨remoteAddr, b, username, host⟩, none)
  else
    (some ⟨remoteAddr, b, username, serverAddr⟩, none)

/-- Segment of `ProcessConn`, the middle one (conn_processer.go lines 52-70): decode
the framed bytes, reject an empty packet sequence with the literal error,
unmarshal the first packet as `Login`, parse its connection request. -/
def processPacket (env : ConnEnv) (remoteAddr : List Char) (b : List Nat) :
    Option ProcessedConn × Option String :=
  match env.decode b with
  | .error e => (none, some e)
  | .ok [] => (none, some "no valid packets received")
  | .ok (pk0 :: _) =>
    match env.unmarshalLogin pk0 with
    | .error e => (none, some e)
    | .ok loginPk =>
      match env.loginParse loginPk.connectionRequest with
      | .error e => (none, some e)
      | .ok (iData, cData) => processLoginData remoteAddr b iData cData

/-- Segment of `ProcessConn` after the PROXY-header step (conn_processer.go lines
46-50 onward): read the first framed packet, record it as `readBytes`,
and continue with the decode pipeline. -/
def processAfterProxy (env : ConnEnv) (remoteAddr : List Char) :
    Option ProcessedConn × Option String :=
  match env.readPacket with
  | .error e => (none, some e)
  | .ok b => processPacket env remoteAddr b

/-- Function `ConnProcessor.ProcessConn` (conn_processer.go lines 32-82), returned
as Go's value/error pair: when the connection's `proxyProtocol` flag is
set, consume a PROXY header — fatally on failure — and replace
`remoteAddr` with its declared source; then run the handshake pipeline.
Every failure path returns `(nil, err)`. -/
def processConn (env : ConnEnv) : Option ProcessedConn × Option String :=
  if env.proxyProtocol then
    match env.proxyHeader with
    | .error e => (none, some e)
    | .ok src => processAfterProxy env src
  else
    processAfterProxy env env.remoteAddr0

/-- Modelled from the spec: the listener code that decides whether the
accepted connection carries a PROXY header is not among the provided
sources; per the spec it reads one exactly when `receiveProxyProtocol` is
set and the peer address lies in `trustedProxyCIDRs`, which is the
`proxyProtocol` flag `ProcessConn` consults. -/
def listenerProxyFlag (receiveProxyProtocol peerInTrustedCIDRs : Bool) :
    Bool :=
  receiveProxyProtocol && peerInTrustedCIDRs

/-- A concrete environment: trusted PROXY peer, a well-formed login whose
server address carries a `:port` suffix. Used by the witnesses. -/
def sampleEnv : ConnEnv where
  proxyProtocol := true
  remoteAddr0 := "10.0.0.7:40000".toList
  proxyHeader := .ok "198.51.100.4:52341".toList
  readPacket := .ok [254, 1, 2, 3]
  decode := fun _ => .ok [⟨[6, 1]⟩]
  unmarshalLogin := fun _ => .ok ⟨[9, 9]⟩
  loginParse := fun _ =>
    .ok (⟨"Steve".toList⟩, ⟨"play.example.com:19132".toList⟩)

/-- Environment `sampleEnv` with the listener's proxy flag cleared (untrusted peer). -/
def sampleEnvUntrusted : ConnEnv :=
  { sampleEnv with proxyProtocol := false }

/-- Environment `sampleEnv` with a failing RakNet decode stage. -/
def sampleEnvBadDecode : ConnEnv :=
  { sampleEnv with decode := fun _ => .error "raknet decode failed" }

/-- Environment `sampleEnv` with a bracketed IPv6 literal as requested server
address. -/
def sampleEnvBracket : ConnEnv :=
  { sampleEnv with
    loginParse :=
      (fun _ => Except.ok (⟨"Steve".toList⟩, ⟨"[::1]:19132".toList⟩)) }

/-- The claim's reading of "the ServerAddress with the `:port` suffix
stripped": everything before the last colon, stated from the spec's words
for comparison with the embedded code. -/
def stripPortSuffixSpec (s : List Char) : List Char :=
  match lastIndexOf s ':' with
  | none => s
  | some i => s.take i

/-- On success, the last processing segment fixes every field of the
processed connection: the remote address and packet bytes it was given,
the login display name, and the (possibly `:port`-split) server
address. -/
theorem processLoginData_success (ra : List Char) (b : List Nat)
    (iData : IdentityData) (cData : ClientData) (pc : ProcessedConn)
    (h : (processLoginData ra b iData cData).1 = some pc) :
    pc.remoteAddr = ra ∧ pc.readBytes = b ∧
    pc.username = iData.displayName ∧
    ((':' ∈ cData.serverAddress ∧
      ∃ port, splitHostPort cData.serverAddress = .ok (pc.serverAddr, port)) ∨
     (':' ∉ cData.serverAddress ∧ pc.serverAddr = cData.serverAddress)) := by
  simp only [processLoginData] at h
  split at h
  · rename_i hc
    split at h
    · simp at h
    · rename_i host port hsp
      simp only [Option.some.injEq] at h
      subst h
      exact ⟨rfl, rfl, rfl, .inl ⟨hc, port, hsp⟩⟩
  · rename_i hc
    simp only [Option.some.injEq] at h
    subst h
    exact ⟨rfl, rfl, rfl, .inr ⟨hc, rfl⟩⟩

/-- On success, the decode pipeline went through every stage: a non-empty
decode, a login unmarshal, a parsed connection request. -/
theorem processPacket_success (env : ConnEnv) (ra : List Char)
    (b : List Nat) (pc : ProcessedConn)
    (h : (processPacket env ra b).1 = some pc) :
    ∃ pk0 rest loginPk iData cData,
      env.decode b = .ok (pk0 :: rest) ∧
      env.unmarshalLogin pk0 = .ok loginPk ∧
      env.loginParse loginPk.connectionRequest = .ok (iData, cData) ∧
      (processLoginData ra b iData cData).1 = some pc := by
  simp only [processPacket] at h
  split at h
  · simp at h
  · simp at h
  · rename_i pk0 rest hdec
    split at h
    · simp at h
    · rename_i loginPk hum
      split at h
      · simp at h
      · rename_i iData cData hlp
        exact ⟨pk0, rest, loginPk, iData, cData, hdec, hum, hlp, h⟩

/-- On success, the framed read succeeded and its bytes feed the decode
pipeline. -/
theorem processAfterProxy_success (env : ConnEnv) (ra : List Char)
    (pc : ProcessedConn) (h : (processAfterProxy env ra).1 = some pc) :
    ∃ b, env.readPacket = .ok b ∧ (processPacket env ra b).1 = some pc := by
  simp only [processAfterProxy] at h
  split at h
  · simp at h
  · rename_i b hrp
    exact ⟨b, hrp, h⟩

/-- On success, the remote address fed to the pipeline is the PROXY
header's source when the flag was set, and the transport peer address
otherwise. -/
theorem processConn_success (env : ConnEnv) (pc : ProcessedConn)
    (h : (processConn env).1 = some pc) :
    ∃ ra, ((env.proxyProtocol = true ∧ env.proxyHeader = .ok ra) ∨
           (env.proxyProtocol = false ∧ ra = env.remoteAddr0)) ∧
      (processAfterProxy env ra).1 = some pc := by
  simp only [processConn] at h
  split at h
  · rename_i hb
    split at h
    · simp at h
    · rename_i src hsrc
      exact ⟨src, .inl ⟨hb, hsrc⟩, h⟩
  · rename_i hb
    exact ⟨env.remoteAddr0, .inr ⟨by simpa using hb, rfl⟩, h⟩

/-- The pipeline after the PROXY step never reads the header stage, so its
result is invariant under replacing it. -/
theorem processAfterProxy_proxyHeader_irrel (env : ConnEnv)
    (h : Except String (List Char)) (ra : List Char) :
    processAfterProxy { env with proxyHeader := h } ra =
      processAfterProxy env ra := rfl

/-- C1: with the listener's proxy flag wired as the spec prescribes
(`receiveProxyProtocol` AND peer trusted): for a trusted peer the
processed connection's remote address is the PROXY header's declared
source, and a header read failure makes `ProcessConn` return that error
and no connection; for an untrusted peer the header is never consumed (the
result is the same whatever the header stage would yield, so handshake
parsing starts at byte 0 of the stream) and the remote address stays the
transport peer address. -/
theorem processConn_proxyProtocol (r t : Bool) (env : ConnEnv)
    (henv : env.proxyProtocol = listenerProxyFlag r t) :
    ((r && t) = true →
      (∀ src, env.proxyHeader = .ok src →
        ∀ pc, (processConn env).1 = some pc → pc.remoteAddr = src) ∧
      (∀ e, env.proxyHeader = .error e →
        processConn env = (none, some e))) ∧
    ((r && t) = false →
      (∀ h, processConn { env with proxyHeader := h } = processConn env) ∧
      (∀ pc, (processConn env).1 = some pc →
        pc.remoteAddr = env.remoteAddr0)) := by
  unfold listenerProxyFlag at henv
  constructor
  · intro htrue
    rw [htrue] at henv
    refine ⟨?_, ?_⟩
    · intro src hsrc pc hpc
      obtain ⟨ra, hra, hafter⟩ := processConn_success env pc hpc
      obtain ⟨b, _, hpk⟩ := processAfterProxy_success env ra pc hafter
      obtain ⟨pk0, rest, loginPk, iData, cData, _, _, _, hld⟩ :=
        processPacket_success env ra b pc hpk
      have hrem := (processLoginData_success ra b iData cData pc hld).1
      rcases hra with ⟨_, hok⟩ | ⟨hflag, _⟩
      · rw [hok] at hsrc
        injection hsrc with hs
        rw [hrem, hs]
      · rw [henv] at hflag
        simp at hflag
    · intro e he
      simp only [processConn, henv, if_true, he]
  · intro hfalse
    rw [hfalse] at henv
    refine ⟨?_, ?_⟩
    · intro h
      simp only [processConn, henv, Bool.false_eq_true, if_false]
      exact processAfterProxy_proxyHeader_irrel env h env.remoteAddr0
    · intro pc hpc
      obtain ⟨ra, hra, hafter⟩ := processConn_success env pc hpc
      obtain ⟨b, _, hpk⟩ := processAfterProxy_success env ra pc hafter
      obtain ⟨pk0, rest, loginPk, iData, cData, _, _, _, hld⟩ :=
        processPacket_success env ra b pc hpk
      have hrem := (processLoginData_success ra b iData cData pc hld).1
      rcases hra with ⟨hflag, _⟩ | ⟨_, hra0⟩
      · rw [henv] at hflag
        simp at hflag
      · rw [hrem, hra0]

/-- Every branch of `ProcessConn` returns either a connection or an
error, never both. -/
theorem processConn_cases (env : ConnEnv) :
    (processConn env).1 = none ∨ (processConn env).2 = none := by
  unfold processConn processAfterProxy processPacket processLoginData
  dsimp only
  repeat' split
  all_goals simp

/-- C9: whenever `ProcessConn` returns a non-nil error, the connection
value it returns is nil — no error path hands the caller a partially
processed connection. -/
theorem processConn_error_nil (env : ConnEnv)
    (h : (processConn env).2.isSome = true) : (processConn env).1 = none := by
  rcases processConn_cases env with h1 | h2
  · exact h1
  · rw [h2] at h
    simp at h

/-- Witness for C9: the failing-decode environment errors and returns no
connection. -/
theorem processConn_error_nil_witness :
    (processConn sampleEnvBadDecode).2.isSome = true ∧
    (processConn sampleEnvBadDecode).1 = none :=
  ⟨rfl, processConn_error_nil sampleEnvBadDecode rfl⟩

/-- C4: a failed decode of the first framed packet, an empty decoded
packet sequence, a failed `Login` unmarshal, or an unparsable
`ConnectionRequest` each make `ProcessConn` return an error and no
connection. -/
theorem processConn_malformed_login (env : ConnEnv) (b : List Nat)
    (hp : env.proxyProtocol = false ∨ ∃ a, env.proxyHeader = .ok a)
    (hr : env.readPacket = .ok b)
    (hbad : (∃ e, env.decode b = .error e) ∨
      env.decode b = .ok [] ∨
      (∃ pk0 rest e, env.decode b = .ok (pk0 :: rest) ∧
        env.unmarshalLogin pk0 = .error e) ∨
      (∃ pk0 rest loginPk e, env.decode b = .ok (pk0 :: rest) ∧
        env.unmarshalLogin pk0 = .ok loginPk ∧
        env.loginParse loginPk.connectionRequest = .error e)) :
    (processConn env).1 = none ∧ (processConn env).2.isSome = true := by
  have key : ∀ ra, (processPacket env ra b).1 = none ∧
      (processPacket env ra b).2.isSome = true := by
    intro ra
    rcases hbad with ⟨e, he⟩ | he | ⟨pk0, rest, e, hd, hu⟩ |
      ⟨pk0, rest, lp, e, hd, hu, hl⟩
    · simp [processPacket, he]
    · simp [processPacket, he]
    · simp [processPacket, hd, hu]
    · simp [processPacket, hd, hu, hl]
  have hred : ∃ ra, processConn env = processAfterProxy env ra := by
    cases hflag : env.proxyProtocol with
    | false => exact ⟨env.remoteAddr0, by simp [processConn, hflag]⟩
    | true =>
      rcases hp with hfalse | ⟨a, ha⟩
      · rw [hflag] at hfalse
        simp at hfalse
      · exact ⟨a, by simp [processConn, hflag, ha]⟩
  obtain ⟨ra, hra⟩ := hred
  rw [hra]
  simpa [processAfterProxy, hr] using key ra

/-- Witness for C4: the failing-decode environment, PROXY header read
fine, decode failing. -/
theorem processConn_malformed_login_witness :
    (sampleEnvBadDecode.proxyProtocol = false ∨
      ∃ a, sampleEnvBadDecode.proxyHeader = .ok a) ∧
    sampleEnvBadDecode.readPacket = .ok [254, 1, 2, 3] ∧
    sampleEnvBadDecode.decode [254, 1, 2, 3] =
      .error "raknet decode failed" ∧
    ((processConn sampleEnvBadDecode).1 = none ∧
      (processConn sampleEnvBadDecode).2.isSome = true) :=
  ⟨.inr ⟨_, rfl⟩, rfl, rfl,
    processConn_malformed_login sampleEnvBadDecode [254, 1, 2, 3]
      (.inr ⟨_, rfl⟩) rfl (.inl ⟨_, rfl⟩)⟩

/-- C5: for every successfully processed connection, the recorded prelude
`readBytes` is exactly the byte sequence the framed-packet read produced
after any PROXY header — nothing more, nothing less. -/
theorem processConn_prelude (env : ConnEnv) (b : List Nat)
    (pc : ProcessedConn) (hr : env.readPacket = .ok b)
    (hpc : (processConn env).1 = some pc) : pc.readBytes = b := by
  obtain ⟨ra, _, hafter⟩ := processConn_success env pc hpc
  obtain ⟨b', hb', hpk⟩ := processAfterProxy_success env ra pc hafter
  rw [hr] at hb'
  injection hb' with hbb
  obtain ⟨pk0, rest, loginPk, iData, cData, _, _, _, hld⟩ :=
    processPacket_success env ra b' pc hpk
  have hrb := (processLoginData_success ra b' iData cData pc hld).2.1
  rw [hrb, ← hbb]

/-- The connection `processConn sampleEnv` yields. -/
def pcSample : ProcessedConn :=
  ⟨"198.51.100.4:52341".toList, [254, 1, 2, 3], "Steve".toList,
    "play.example.com".toList⟩

/-- Witness for C5: the sample environment's prelude is its framed
packet. -/
theorem processConn_prelude_witness :
    sampleEnv.readPacket = .ok [254, 1, 2, 3] ∧
    (processConn sampleEnv).1 = some pcSample ∧
    pcSample.readBytes = [254, 1, 2, 3] :=
  ⟨rfl, rfl, processConn_prelude sampleEnv [254, 1, 2, 3] pcSample rfl rfl⟩

/-- Counterexample for C3: for the ServerAddress `[::1]:19132` (which
contains a colon) the code's requested host is `::1` — the brackets are
removed by `net.SplitHostPort` — which differs from the ServerAddress
with the `:port` suffix stripped, `[::1]`. -/
theorem processConn_stripPort_counterexample :
    ((processConn sampleEnvBracket).1.map ProcessedConn.serverAddr) =
      some "::1".toList ∧
    stripPortSuffixSpec "[::1]:19132".toList = "[::1]".toList ∧
    "::1".toList ≠ "[::1]".toList :=
  ⟨rfl, rfl, by decide⟩

/-- C3 as amended: on a successful process whose login stage yielded
identity and client data, the username is the DisplayName claim, and the
requested host is the host component `net.SplitHostPort` returns when the
ServerAddress contains a colon (for bracketed IPv6 literals the enclosing
brackets are removed as well), and the ServerAddress verbatim when it
contains none. -/
theorem processConn_requestedHost (env : ConnEnv) (iData : IdentityData)
    (cData : ClientData) (pc : ProcessedConn)
    (hpc : (processConn env).1 = some pc)
    (hstage : ∃ b pk0 rest loginPk, env.readPacket = .ok b ∧
      env.decode b = .ok (pk0 :: rest) ∧
      env.unmarshalLogin pk0 = .ok loginPk ∧
      env.loginParse loginPk.connectionRequest = .ok (iData, cData)) :
    pc.username = iData.displayName ∧
    (∀ host port, ':' ∈ cData.serverAddress →
      splitHostPort cData.serverAddress = .ok (host, port) →
      pc.serverAddr = host) ∧
    (':' ∉ cData.serverAddress → pc.serverAddr = cData.serverAddress) := by
  obtain ⟨b, pk0, rest, loginPk, hr, hd, hu, hl⟩ := hstage
  obtain ⟨ra, _, hafter⟩ := processConn_success env pc hpc
  obtain ⟨b', hb', hpk⟩ := processAfterProxy_success env ra pc hafter
  rw [hr] at hb'
  injection hb' with hbb
  subst hbb
  obtain ⟨pk0', rest', loginPk', iData', cData', hd', hu', hl', hld⟩ :=
    processPacket_success env ra b pc hpk
  rw [hd] at hd'
  injection hd' with hlist
  injection hlist with hpk0 hrest
  subst hpk0
  rw [hu] at hu'
  injection hu' with hlp
  subst hlp
  rw [hl] at hl'
  injection hl' with hpair
  injection hpair with hi hc
  subst hi
  subst hc
  obtain ⟨_, _, hun, hsa⟩ := processLoginData_success ra b iData cData pc hld
  refine ⟨hun, ?_, ?_⟩
  · intro host port hmem hsp
    rcases hsa with ⟨_, port', hsp'⟩ | ⟨hnot, _⟩
    · rw [hsp] at hsp'
      injection hsp' with hp
      injection hp with h1 h2
      exact h1.symm
    · exact absurd hmem hnot
  · intro hnot
    rcases hsa with ⟨hmem, _⟩ | ⟨_, hverb⟩
    · exact absurd hmem hnot
    · exact hverb

/-- Witness for C3 (amended): the sample environment requests
`play.example.com:19132` as `Steve`; the processed connection keeps host
`play.example.com` and that username. -/
theorem processConn_requestedHost_witness :
    (processConn sampleEnv).1 = some pcSample ∧
    (pcSample.username = IdentityData.displayName ⟨"Steve".toList⟩ ∧
    (∀ host port,
      ':' ∈ ClientData.serverAddress ⟨"play.example.com:19132".toList⟩ →
      splitHostPort
        (ClientData.serverAddress ⟨"play.example.com:19132".toList⟩) =
        .ok (host, port) →
      pcSample.serverAddr = host) ∧
    (':' ∉ ClientData.serverAddress ⟨"play.example.com:19132".toList⟩ →
      pcSample.serverAddr =
        ClientData.serverAddress ⟨"play.example.com:19132".toList⟩)) :=
  ⟨rfl, processConn_requestedHost sampleEnv ⟨"Steve".toList⟩
    ⟨"play.example.com:19132".toList⟩ pcSample rfl
    ⟨[254, 1, 2, 3], ⟨[6, 1]⟩, [], ⟨[9, 9]⟩, rfl, rfl, rfl, rfl⟩⟩

/-- Witness for C1: `processConn_proxyProtocol` instantiated at the
trusted sample environment, its flag hypothesis discharged by
evaluation. -/
theorem processConn_proxyProtocol_witness :
    sampleEnv.proxyProtocol = listenerProxyFlag true true ∧
    (((true && true) = true →
      (∀ src, sampleEnv.proxyHeader = .ok src →
        ∀ pc, (processConn sampleEnv).1 = some pc → pc.remoteAddr = src) ∧
      (∀ e, sampleEnv.proxyHeader = .error e →
        processConn sampleEnv = (none, some e))) ∧
    ((true && true) = false →
      (∀ h, processConn { sampleEnv with proxyHeader := h } =
        processConn sampleEnv) ∧
      (∀ pc, (processConn sampleEnv).1 = some pc →
        pc.remoteAddr = sampleEnv.remoteAddr0))) :=
  ⟨rfl, processConn_proxyProtocol true true sampleEnv rfl⟩

/-! ## Supervisor hot reload

`onConfigChange` (src/cmd/root.go lines 200-236). The per-edition config
parsers (`java.NewProxyConfigFromMap`, `bedrock.NewProxyConfigFromMap`),
the proxies' `Reload` and the plugin manager's `ReloadPlugins` are not
among the provided sources and enter as environment fields over abstract
state types; the callback's own control flow is embedded from the
source. -/

/-- Enumeration `infrared.Edition`: the two protocol dialects. -/
inductive Edition where
  | java
  | bedrock
  deriving DecidableEq, Repr

/-- The collaborators `onConfigChange` calls, over abstract types for the
raw config document, the per-edition proxy configs, the proxy states and
the plugin-manager state. -/
structure ReloadEnv (Raw PrxCfg PrxState PlgState : Type) where
  parseJava : Raw → Except String PrxCfg
  parseBedrock : Raw → Except String PrxCfg
  reloadProxy : Edition → PrxCfg → PrxState → PrxState
  reloadPlugins : Raw → PlgState → PlgState

/-- The supervisor state `onConfigChange` mutates: one proxy per edition
plus the plugin manager. -/
structure SupState (PrxState PlgState : Type) where
  prx : Edition → PrxState
  plg : PlgState

/-- The observable calls of one reload pass, in order. -/
inductive ReloadEffect where
  | reloadProxy (e : Edition)
  | reloadPlugins
  | logError
  deriving DecidableEq, Repr

/-- Callback `onConfigChange` (root.go lines 200-236): parse the Java config — on
error log and return; parse the Bedrock config — on error log and return;
only then reload every proxy with its edition's new config and reload the
plugins. The returned effect list records which collaborators ran. -/
def onConfigChange {Raw PrxCfg PrxState PlgState : Type}
    (env : ReloadEnv Raw PrxCfg PrxState PlgState)
    (st : SupState PrxState PlgState) (cfg : Raw) :
    SupState PrxState PlgState × List ReloadEffect :=
  match env.parseJava cfg with
  | .error _ => (st, [.logError])
  | .ok javaPrxCfg =>
    match env.parseBedrock cfg with
    | .error _ => (st, [.logError])
    | .ok bedrockPrxCfg =>
      let prxCfgs : Edition → PrxCfg := fun n =>
        match n with
        | .java => javaPrxCfg
        | .bedrock => bedrockPrxCfg
      let st1 : SupState PrxState PlgState :=
        { st with prx := fun n => env.reloadProxy n (prxCfgs n) (st.prx n) }
      let st2 : SupState PrxState PlgState :=
        { st1 with plg := env.reloadPlugins cfg st1.plg }
      (st2, [.reloadProxy .java, .reloadProxy .bedrock, .reloadPlugins])

/-- C2: if parsing the new configuration fails for either edition, the
reload callback returns with the supervisor state untouched and with only
a log entry as effect — no proxy `Reload` and no plugin `Reload` was
invoked, so every prior configuration stays active. -/
theorem onConfigChange_parse_failure {Raw PrxCfg PrxState PlgState : Type}
    (env : ReloadEnv Raw PrxCfg PrxState PlgState)
    (st : SupState PrxState PlgState) (cfg : Raw)
    (h : (∃ e, env.parseJava cfg = .error e) ∨
      (∃ e, env.parseBedrock cfg = .error e)) :
    (onConfigChange env st cfg).1 = st ∧
    (onConfigChange env st cfg).2 = [.logError] ∧
    (∀ n, ReloadEffect.reloadProxy n ∉ (onConfigChange env st cfg).2) ∧
    ReloadEffect.reloadPlugins ∉ (onConfigChange env st cfg).2 := by
  have hmain : (onConfigChange env st cfg).1 = st ∧
      (onConfigChange env st cfg).2 = [.logError] := by
    rcases h with ⟨e, he⟩ | ⟨e, he⟩
    · simp [onConfigChange, he]
    · unfold onConfigChange
      cases hj : env.parseJava cfg with
      | error _ => simp
      | ok jc => simp [he]
  refine ⟨hmain.1, hmain.2, ?_, ?_⟩
  · intro n
    rw [hmain.2]
    simp
  · rw [hmain.2]
    simp

/-- A concrete reload environment over `Nat`-coded states whose Java
config parser rejects every document. Used by the C2 witness. -/
def badParseEnv : ReloadEnv Nat Nat Nat Nat where
  parseJava := fun _ => .error "invalid java config"
  parseBedrock := fun _ => .ok 0
  reloadProxy := fun _ c _ => c
  reloadPlugins := fun _ s => s + 1

/-- A concrete supervisor state for the C2 witness. -/
def sampleSupState : SupState Nat Nat where
  prx := fun _ => 41
  plg := 7

/-- Witness for C2: the failing-parser environment leaves the sample
state untouched and performs no reload. -/
theorem onConfigChange_parse_failure_witness :
    ((∃ e, badParseEnv.parseJava 3 = .error e) ∨
      (∃ e, badParseEnv.parseBedrock 3 = .error e)) ∧
    ((onConfigChange badParseEnv sampleSupState 3).1 = sampleSupState ∧
    (onConfigChange badParseEnv sampleSupState 3).2 = [.logError] ∧
    (∀ n, ReloadEffect.reloadProxy n ∉
      (onConfigChange badParseEnv sampleSupState 3).2) ∧
    ReloadEffect.reloadPlugins ∉
      (onConfigChange badParseEnv sampleSupState 3).2) :=
  ⟨.inl ⟨_, rfl⟩,
    onConfigChange_parse_failure badParseEnv sampleSupState 3 (.inl ⟨_, rfl⟩)⟩

/-! ## CLI startup

`newLogger` and the root command's run function (src/cmd/root.go lines
26-31, 50-131, 146-155). The zap constructors, `os.Chdir`, `os.Stat`,
`config.New` and everything after the config load are external; they
enter as outcomes in a `RunEnv`, and the run function's sequencing is
embedded from the source. -/

/-- Constant `devEnvironment` (root.go line 27). -/
def devEnvironment : List Char := "dev".toList

/-- Constant `prodEnvironment` (root.go line 28). -/
def prodEnvironment : List Char := "prod".toList

/-- The logger zap would construct. -/
inductive LoggerKind where
  | development
  | production
  deriving DecidableEq, Repr

/-- Function `newLogger` (root.go lines 146-155): `dev` selects the development
logger, `prod` the production logger, anything else is an error
(zap's own constructors are modelled as succeeding; their failure modes do
not depend on the flag value). -/
def newLogger (env : List Char) : Except String LoggerKind :=
  if env = devEnvironment then .ok .development
  else if env = prodEnvironment then .ok .production
  else .error "unsupported environment"

/-- The observable steps of the root command's run function, in program
order. -/
inductive RunEffect where
  | chdir
  | seedDefaultConfig
  | loadConfig
  deriving DecidableEq, Repr

/-- Outcomes of the external calls the run function makes up to the
config load, plus the `--environment` flag value; everything after
`config.New` (read, per-edition parse, proxy construction, plugins,
serving) is folded into `rest`. -/
structure RunEnv where
  environment : List Char
  chdir : Except String Unit
  configExists : Bool
  seedConfig : Except String Unit
  loadConfig : Except String Unit
  rest : Except String Unit × List RunEffect

/-- The root command's `RunE` (root.go lines 50-131), as far as the claims
reach: construct the logger from the `--environment` flag — on error
return it before anything else happens; change to the working directory;
seed the default config tree only when the config path does not exist;
load the config; then the remaining pipeline. The effect list records
which steps ran. -/
def runE (env : RunEnv) : Except String Unit × List RunEffect :=
  match newLogger env.environment with
  | .error e => (.error e, [])
  | .ok _ =>
    match env.chdir with
    | .error e => (.error e, [.chdir])
    | .ok _ =>
      let seedStep : Except String Unit × List RunEffect :=
        if env.configExists then (.ok (), [])
        else
          match env.seedConfig with
          | .error e => (.error e, [.seedDefaultConfig])
          | .ok _ => (.ok (), [.seedDefaultConfig])
      match seedStep with
      | (.error e, fx) => (.error e, [.chdir] ++ fx)
      | (.ok _, fx) =>
        match env.loadConfig with
        | .error e => (.error e, [.chdir] ++ fx ++ [.loadConfig])
        | .ok _ =>
          (env.rest.1, [.chdir] ++ fx ++ [.loadConfig] ++ env.rest.2)

/-- C6: `newLogger` accepts exactly `dev` and `prod` (development resp.
production logger); for any other flag value it fails, and the run
function returns that error with an empty step list — before the working
directory is changed, before any config is loaded and before any proxy is
started. -/
theorem runE_environment (env : RunEnv)
    (h : env.environment ≠ devEnvironment ∧
      env.environment ≠ prodEnvironment) :
    newLogger devEnvironment = .ok .development ∧
    newLogger prodEnvironment = .ok .production ∧
    newLogger env.environment = .error "unsupported environment" ∧
    runE env = (.error "unsupported environment", []) := by
  have hlog : newLogger env.environment = .error "unsupported environment" := by
    simp [newLogger, h.1, h.2]
  refine ⟨by simp [newLogger, devEnvironment, prodEnvironment], rfl, hlog, ?_⟩
  simp [runE, hlog]

/-- A concrete run environment carrying the rejected flag value
`staging`. Used by the C6 witness. -/
def stagingRunEnv : RunEnv where
  environment := "staging".toList
  chdir := .ok ()
  configExists := true
  seedConfig := .ok ()
  loadConfig := .ok ()
  rest := (.ok (), [])

/-- Witness for C6: the `staging` flag value is rejected before any
step runs. -/
theorem runE_environment_witness :
    (stagingRunEnv.environment ≠ devEnvironment ∧
      stagingRunEnv.environment ≠ prodEnvironment) ∧
    (newLogger devEnvironment = .ok .development ∧
    newLogger prodEnvironment = .ok .production ∧
    newLogger stagingRunEnv.environment = .error "unsupported environment" ∧
    runE stagingRunEnv = (.error "unsupported environment", [])) :=
  ⟨⟨by decide, by decide⟩,
    runE_environment stagingRunEnv ⟨by decide, by decide⟩⟩

/-! ## Default configuration seeding

`safeWriteFromEmbeddedFS` (src/cmd/root.go lines 164-198). The embedded
asset bundle is a pure tree (`embed.FS` reads cannot fail at runtime); the
target filesystem is a path-keyed store where `os.Stat` is lookup,
`os.Mkdir` and `os.WriteFile` are insertion (`WriteFile` would overwrite,
but the source's stat guard is what the claim is about). Paths are segment
lists (`filepath.Join` is append). -/

/-- A filesystem entry: a regular file with its bytes, or a directory. -/
inductive FsEntry where
  | file (content : List Nat)
  | dir
  deriving DecidableEq, Repr

/-- A path as the list of its segments below the working directory. -/
abbrev FsPath := List String

/-- The target filesystem: newest entry first, lookup takes the first
match, so consing models an overwriting write. -/
abbrev Fs := List (FsPath × FsEntry)

/-- Lookup modelling `os.Stat`: the entry currently at `p`, if any. -/
def fsLookup (fs : Fs) (p : FsPath) : Option FsEntry :=
  match fs with
  | [] => none
  | (q, e) :: rest => if q = p then some e else fsLookup rest p

/-- Insertion modelling `os.Mkdir` and `os.WriteFile`: place `e` at `p`, shadowing any previous
entry. -/
def fsInsert (fs : Fs) (p : FsPath) (e : FsEntry) : Fs :=
  (p, e) :: fs

/-- One entry of the embedded asset bundle (`embed.FS`): a file with its
bytes or a directory with its children, each carrying its base name. -/
inductive EmbedEntry where
  | file (name : String) (content : List Nat)
  | dir (name : String) (entries : List EmbedEntry)

/-- Function `safeWriteFromEmbeddedFS` (root.go lines 164-198) over the entries of
one embedded directory: for each entry, `filepath.Join` the target path;
if `os.Stat` finds anything there, `continue` to the next entry; otherwise
`os.WriteFile` a file, or `os.Mkdir` a directory and recurse into it. -/
def safeWriteEntries : List EmbedEntry → FsPath → Fs → Fs
  | [], _, fs => fs
  | .file name content :: rest, sysPath, fs =>
    safeWriteEntries rest sysPath
      (if (fsLookup fs (sysPath ++ [name])).isSome then fs
       else fsInsert fs (sysPath ++ [name]) (FsEntry.file content))
  | .dir name sub :: rest, sysPath, fs =>
    safeWriteEntries rest sysPath
      (if (fsLookup fs (sysPath ++ [name])).isSome then fs
       else safeWriteEntries sub (sysPath ++ [name])
         (fsInsert fs (sysPath ++ [name]) FsEntry.dir))

/-- Inserting at a currently-absent path disturbs no present entry. -/
theorem fsLookup_fsInsert_preserve (fs : Fs) (p q : FsPath) (e v : FsEntry)
    (hp : fsLookup fs p = some e) (hq : fsLookup fs q = none) :
    fsLookup (fsInsert fs q v) p = some e := by
  have hne : q ≠ p := by
    intro hqp
    rw [hqp, hp] at hq
    cases hq
  simp only [fsInsert, fsLookup, if_neg hne]
  exact hp

/-- C10: materialising the embedded default configuration tree never
overwrites: every path at which the filesystem already holds an entry
still holds exactly that entry afterwards; only absent paths are
created. -/
theorem safeWriteEntries_preserves_existing (entries : List EmbedEntry)
    (sysPath : FsPath) (fs : Fs) (p : FsPath) (v : FsEntry)
    (h : fsLookup fs p = some v) :
    fsLookup (safeWriteEntries entries sysPath fs) p = some v := by
  revert h
  induction entries, sysPath, fs using safeWriteEntries.induct with
  | case1 sysPath fs =>
    intro h
    simpa [safeWriteEntries] using h
  | case2 name content rest sysPath fs ih =>
    intro h
    rw [safeWriteEntries]
    apply ih
    by_cases hex : (fsLookup fs (sysPath ++ [name])).isSome
    · rw [dif_pos hex]
      exact h
    · rw [dif_neg hex]
      exact fsLookup_fsInsert_preserve fs p (sysPath ++ [name]) v _ h
        (Option.not_isSome_iff_eq_none.mp hex)
  | case3 name sub rest sysPath fs ihsub ih =>
    intro h
    rw [safeWriteEntries]
    apply ih
    by_cases hex : (fsLookup fs (sysPath ++ [name])).isSome
    · rw [dif_pos hex]
      exact h
    · rw [dif_neg hex]
      apply ihsub
      exact fsLookup_fsInsert_preserve fs p (sysPath ++ [name]) v _ h
        (Option.not_isSome_iff_eq_none.mp hex)

/-- A concrete embedded tree (a config file and a proxies directory) for
the C10 witness. -/
def sampleEmbedTree : List EmbedEntry :=
  [.file "config.yml" [9, 9],
   .dir "proxies" [.file "default.yml" [1, 2]]]

/-- A concrete target filesystem already holding a `config.yml` for the
C10 witness. -/
def sampleFs : Fs := [(["config.yml"], FsEntry.file [7])]

/-- Witness for C10: seeding over a filesystem that already has a
`config.yml` leaves that file's bytes untouched. -/
theorem safeWriteEntries_preserves_existing_witness :
    fsLookup sampleFs ["config.yml"] = some (FsEntry.file [7]) ∧
    fsLookup (safeWriteEntries sampleEmbedTree [] sampleFs) ["config.yml"] =
      some (FsEntry.file [7]) :=
  ⟨rfl, safeWriteEntries_preserves_existing sampleEmbedTree [] sampleFs
    ["config.yml"] (FsEntry.file [7]) rfl⟩

end Infrared
